import Mathlib

/-!
# Verification of the remill AArch64 decode-and-lift core

This file gives a shallow embedding, in Lean 4, of the parts of the remill
binary translator that the specification talks about:

* the AArch64 `ADDS` semantics function and its `AddWithCarryNZCV` flag
  computation (`Semantics` namespace, from the add/sub semantics file);
* the `DecodeBitMasks` bitmask decoder and its helpers
  (`MostSignificantSetBit`, `Ones`, `ROR`, `Replicate`) from
  `Arch/AArch64/Arch.cpp`;
* the operand model and the operand-emission helpers (`AddRegOperand`,
  `AddImmOperand`, `AddBasePlusOffsetMemOp`, `AddPreIndexMemOp`,
  `AddPostIndexMemOp`, ...) together with a selection of `TryDecode`
  functions, and `AArch64Arch::DecodeInstruction`;
* the condition evaluator `CheckCondState` from
  `Arch/AArch64/Semantics/BRANCH.cpp`;
* the forward alias analysis and the forwarding / dead-store phases of
  `BC/DeadStoreEliminator.cpp`, on a faithful single-block fragment of
  LLVM IR.

Machine integers are modelled as `Nat` (with explicit `% 2^64` / `% 2^32`
where the C++ type would wrap) and `Int` for signed quantities.
-/

set_option maxRecDepth 100000

namespace Remill

/-! ## Widths and two's-complement helpers -/

def pow32 : Nat := 4294967296
def pow31 : Nat := 2147483648
def pow64 : Nat := 18446744073709551616

/-- `SExt` of a 32-bit unsigned value to the mathematical integer it denotes
as a signed 32-bit quantity. -/
def sext32 (x : Nat) : Int :=
  if x < pow31 then (x : Int) else (x : Int) - (pow32 : Int)

/-- Wrap a mathematical integer into the signed 64-bit range, the way an
`int64_t` computation would. -/
def i64wrap (x : Int) : Int :=
  (x + 2 ^ 63) % (pow64 : Int) - 2 ^ 63

/-- Unsigned 64-bit subtraction (`uint64_t` wraparound). -/
def usub64 (a b : Nat) : Nat := (a + pow64 - b % pow64) % pow64

/-! ## Processor state (flags)

The semantics functions update the `N`/`Z`/`C`/`V` flag registers of the
processor-state structure; the branch conditions additionally read a `GE`
pseudo-flag (`state.state.GE` in `BRANCH.cpp`).  The flag registers are
byte-sized integers tested with `UCmpNeq(⬝, 0)`, so they are modelled as
`Nat`. -/

structure State where
  n : Nat
  z : Nat
  c : Nat
  v : Nat
  ge : Nat
deriving DecidableEq, Repr

namespace Semantics

/-! ## `AddWithCarryNZCV` and `ADDS` (32-bit instantiation)

From the AArch64 add/sub semantics file:

    template <typename T>
    T AddWithCarryNZCV(State &state, T lhs, T rhs, T carry) {
      auto unsigned_result = UAdd(UAdd(ZExt(lhs), ZExt(rhs)), ZExt(carry));
      auto signed_result = SAdd(SAdd(SExt(lhs), SExt(rhs)), Signed(ZExt(carry)));
      auto result = TruncTo<T>(unsigned_result);
      FLAG_N = SignFlag(result);
      FLAG_Z = ZeroFlag(result);
      FLAG_C = UCmpNeq(ZExt(result), unsigned_result);
      FLAG_V = SCmpNeq(SExt(result), signed_result);
      return result;
    }

For `T = uint32_t` the widened computations are on `uint64_t`/`int64_t`. -/

def AddWithCarryNZCV32 (s : State) (lhs rhs carry : Nat) : State × Nat :=
  let unsigned_result := (lhs + rhs + carry) % pow64
  let signed_result := i64wrap (sext32 lhs + sext32 rhs + (carry : Int))
  let result := unsigned_result % pow32
  ({ s with
      n := if sext32 result < 0 then 1 else 0
      z := if result = 0 then 1 else 0
      c := if result ≠ unsigned_result then 1 else 0
      v := if sext32 result ≠ signed_result then 1 else 0 },
   result)

/-- `DEF_SEM(ADDS, ...)`: `res = AddWithCarryNZCV(state, lhs, rhs, T(0))`,
then `WriteZExt(dst, res)`.  Returns the updated flag state and the value
written (zero-extension into the 64-bit destination leaves the value
unchanged). -/
def ADDS32 (s : State) (lhs rhs : Nat) : State × Nat :=
  let r := AddWithCarryNZCV32 s lhs rhs 0
  r

end Semantics

namespace ArchDecode

/-! ## `DecodeBitMasks` and its helpers (`Arch/AArch64/Arch.cpp`) -/

/-- `MostSignificantSetBit`: scans bits `0..63`, remembering the last set
position; returns `none` when no bit in that range is set. -/
def MostSignificantSetBit (val : Nat) : Option Nat :=
  (List.range 64).foldl
    (fun acc i => if (val >>> i) % 2 = 1 then some i else acc) none

/-- `Ones(val)`: `val` iterations of `out = (out << 1) | 1`. -/
def Ones : Nat → Nat
  | 0 => 0
  | n + 1 => Ones n * 2 + 1

/-- One step of the `ROR` loop:
`val = ((val & 1) << (val_size - 1)) | (val >> 1)`. -/
def rorStep (val_size val : Nat) : Nat :=
  ((val % 2) <<< (val_size - 1)) ||| (val >>> 1)

/-- `ROR(val, val_size, rotate_amount)`: `rotate_amount` iterations of
`rorStep`. -/
def ROR (val val_size : Nat) : Nat → Nat
  | 0 => val
  | n + 1 => rorStep val_size (ROR val val_size n)

/-- The body of the `Replicate` loop, iterated once per executed iteration
of `for (i = 0; i < goal_size; i += val_size)`. -/
def replicateIter (val val_size : Nat) : Nat → Nat
  | 0 => 0
  | k + 1 => ((replicateIter val val_size k <<< val_size) ||| val) % pow64

/-- `Replicate(val, val_size, goal_size)`: the source loop runs
`⌈goal_size / val_size⌉` iterations. -/
def Replicate (val val_size goal_size : Nat) : Nat :=
  replicateIter val val_size ((goal_size + val_size - 1) / val_size)

/-- Bitwise complement of a `uint64_t`. -/
def not64 (x : Nat) : Nat := x ^^^ (pow64 - 1)

/-- `DecodeBitMasks(N, imms, immr, is_immediate, data_size)`.  Returns
`some (wmask, tmask)` on success and `none` on every
out-of-range / `ReservedValue` condition, exactly following the source:

    uint64_t len = 0;
    if (!MostSignificantSetBit((N << 6ULL) | (~imms & 0x3fULL), &len)) return false;
    if (len < 1) return false;
    const uint64_t esize = kOne << len;
    if (esize > data_size) return false;
    const uint64_t levels = Ones(len);
    const uint64_t R = immr & levels;
    const uint64_t S = imms & levels;
    if (is_immediate && S == levels) return false;
    const uint64_t diff = (S - R) & 0x3F;
    const uint64_t d = diff & levels;
    const uint64_t welem = Ones(S + kOne);
    const uint64_t telem = Ones(d + kOne);
    const uint64_t wmask = Replicate(ROR(welem, esize, R), esize, data_size);
    const uint64_t tmask = Replicate(telem, esize, data_size);
-/
def DecodeBitMasks (N imms immr : Nat) (is_immediate : Bool)
    (data_size : Nat) : Option (Nat × Nat) :=
  match MostSignificantSetBit ((N <<< 6) ||| (not64 imms &&& 0x3f)) with
  | none => none
  | some len =>
    if len < 1 then none
    else
      let esize := 1 <<< len
      if data_size < esize then none
      else
        let levels := Ones len
        let R := immr &&& levels
        let S := imms &&& levels
        if is_immediate ∧ S = levels then none
        else
          let diff := usub64 S R &&& 0x3F
          let d := diff &&& levels
          let welem := Ones (S + 1)
          let telem := Ones (d + 1)
          let wmask := Replicate (ROR welem esize R) esize data_size
          let tmask := Replicate telem esize data_size
          some (wmask, tmask)

end ArchDecode

/-! ## Operand and Instruction model (`Arch/Instruction.h` as used by
`Arch/AArch64/Arch.cpp`) -/

inductive RegClass
  | X | W | B | H | S | D | Q
deriving DecidableEq, Repr

abbrev RegNum := Nat

inductive RegUsage
  | UseAsAddress | UseAsValue
deriving DecidableEq, Repr

inductive Action
  | Read | Write | ReadWrite
deriving DecidableEq, Repr

inductive ImmType
  | Unsigned | Signed
deriving DecidableEq, Repr

structure OpRegister where
  name : String := ""
  size : Nat := 0
deriving DecidableEq, Repr

inductive OperandType
  | Invalid | Register | Immediate | ShiftRegister | Address
deriving DecidableEq, Repr

inductive OperandAction
  | Invalid | Read | Write
deriving DecidableEq, Repr

inductive AddressKind
  | Invalid | MemoryRead | MemoryWrite | AddressCalculation | ControlFlowTarget
deriving DecidableEq, Repr

structure AddressOperand where
  base_reg : OpRegister := {}
  /-- `int64_t` displacement, modelled as its two's-complement `Nat`. -/
  displacement : Nat := 0
  address_size : Nat := 0
  kind : AddressKind := .Invalid
deriving DecidableEq, Repr

structure ImmediateOperand where
  val : Nat := 0
  is_signed : Bool := false
deriving DecidableEq, Repr

inductive ShiftOpKind
  | Invalid | LeftWithZeroes | UnsignedRight | SignedRight | RightAround
deriving DecidableEq, Repr

inductive ExtendOpKind
  | Invalid | Unsigned | Signed
deriving DecidableEq, Repr

structure ShiftRegOperand where
  reg : OpRegister := {}
  shift_op : ShiftOpKind := .Invalid
  shift_size : Nat := 0
  extend_op : ExtendOpKind := .Invalid
  extract_size : Nat := 0
deriving DecidableEq, Repr

structure Operand where
  type : OperandType := .Invalid
  action : OperandAction := .Invalid
  size : Nat := 0
  reg : OpRegister := {}
  imm : ImmediateOperand := {}
  shift_reg : ShiftRegOperand := {}
  addr : AddressOperand := {}
deriving DecidableEq, Repr

inductive Category
  | Invalid | Error | Normal | NoOp | DirectJump | IndirectJump
  | ConditionalBranch | DirectFunctionCall | IndirectFunctionCall
  | FunctionReturn | AsyncHyperCall
deriving DecidableEq, Repr

structure Instruction where
  pc : Nat := 0
  next_pc : Nat := 0
  bytes : List Nat := []
  category : Category := .Invalid
  function : String := ""
  operands : List Operand := []
deriving DecidableEq, Repr

namespace ArchDecode

/-! ## Register naming and operand-emission helpers
(`Arch/AArch64/Arch.cpp`) -/

/-- `RegNameXW`. -/
def RegNameXW (action : Action) (rclass : RegClass) (rtype : RegUsage)
    (number : RegNum) : String :=
  if number = 31 then
    if rtype = .UseAsValue then
      if action = .Write then "IGNORE_WRITE_TO_XZR"
      else if rclass = .X then "XZR" else "WZR"
    else
      if action = .Write then "SP"
      else if rclass = .X then "SP" else "WSP"
  else
    (if action = .Write then "X"
     else if rclass = .X then "X" else "W") ++ toString number

/-- `RegNameFP`.  `RegName` only routes the floating-point register classes
here, so the `X`/`W` arms are unreachable (the source `CHECK`s `kRegQ`). -/
def RegNameFP (action : Action) (_rtype : RegUsage) (rclass : RegClass)
    (number : RegNum) : String :=
  (if action = .Read then
    match rclass with
    | .B => "B"
    | .H => "H"
    | .S => "S"
    | .D => "D"
    | _ => "Q"
   else "V") ++ toString number

/-- `RegName`. -/
def RegName (action : Action) (rclass : RegClass) (rtype : RegUsage)
    (number : RegNum) : String :=
  match rclass with
  | .X | .W => RegNameXW action rclass rtype number
  | _ => RegNameFP action rtype rclass number

/-- `ReadRegSize`. -/
def ReadRegSize : RegClass → Nat
  | .X => 64
  | .W => 32
  | .B => 8
  | .H => 16
  | .S => 32
  | .D => 64
  | .Q => 128

/-- `WriteRegSize`. -/
def WriteRegSize : RegClass → Nat
  | .X | .W => 64
  | .B | .H | .S | .D | .Q => 128

/-- `Reg`: build a register operand description.  The source `LOG(FATAL)`s
on `kActionReadWrite`; that arm is unreachable from the call sites and is
modelled by the default register. -/
def Reg (action : Action) (rclass : RegClass) (rtype : RegUsage)
    (reg_num : RegNum) : OpRegister :=
  match action with
  | .Write => { name := RegName .Write rclass rtype reg_num
                size := WriteRegSize rclass }
  | .Read => { name := RegName .Read rclass rtype reg_num
               size := ReadRegSize rclass }
  | .ReadWrite => {}

/-- `AddRegOperand`. -/
def AddRegOperand (inst : Instruction) (action : Action) (rclass : RegClass)
    (rtype : RegUsage) (reg_num : RegNum) : Instruction :=
  let inst :=
    if action = .Write ∨ action = .ReadWrite then
      let r := Reg .Write rclass rtype reg_num
      { inst with operands := inst.operands ++
          [{ type := .Register, reg := r, size := r.size,
             action := .Write }] }
    else inst
  if action = .Read ∨ action = .ReadWrite then
    let r := Reg .Read rclass rtype reg_num
    { inst with operands := inst.operands ++
        [{ type := .Register, reg := r, size := r.size,
           action := .Read }] }
  else inst

/-- `AddImmOperand`. -/
def AddImmOperand (inst : Instruction) (val : Nat) (signedness : ImmType)
    (size : Nat) : Instruction :=
  { inst with operands := inst.operands ++
      [{ type := .Immediate, action := .Read, size := size,
         imm := { is_signed := decide (signedness ≠ .Unsigned),
                  val := val } }] }

/-- `AddPCRegOp`: an operand of the form `[PC + disp]`. -/
def AddPCRegOp (inst : Instruction) (action : OperandAction) (disp : Nat)
    (op_kind : AddressKind) : Instruction :=
  { inst with operands := inst.operands ++
      [{ type := .Address, action := action, size := 64,
         addr := { base_reg := { name := "PC", size := 64 },
                   displacement := disp, address_size := 64,
                   kind := op_kind } }] }

/-- `AddPCDisp`: an address operand that computes `PC + disp`. -/
def AddPCDisp (inst : Instruction) (disp : Nat) : Instruction :=
  AddPCRegOp inst .Read disp .AddressCalculation

/-- `AddBasePlusOffsetMemOp`: `[<Xn|SP>, #<imm>]`. -/
def AddBasePlusOffsetMemOp (inst : Instruction) (action : Action)
    (access_size : Nat) (base_reg : RegNum) (disp : Nat) : Instruction :=
  let op : Operand :=
    { type := .Address, size := access_size,
      addr := { address_size := 64,
                base_reg := Reg .Read .X .UseAsAddress base_reg,
                displacement := disp } }
  let inst :=
    if action = .Write ∨ action = .ReadWrite then
      { inst with operands := inst.operands ++
          [{ op with action := .Write,
                     addr := { op.addr with kind := .MemoryWrite } }] }
    else inst
  if action = .Read ∨ action = .ReadWrite then
    { inst with operands := inst.operands ++
        [{ op with action := .Read,
                   addr := { op.addr with kind := .MemoryRead } }] }
  else inst

/-- `AddPreIndexMemOp`: `[<Xn|SP>, #<imm>]!` — emits the memory operand,
then a write operand for the base register, then a copy of the memory
operand turned into an address-calculation operand whose displacement is
doubled (`addr_op.addr.displacement *= 2`, an `int64_t` multiply, hence
mod `2^64`). -/
def AddPreIndexMemOp (inst : Instruction) (action : Action)
    (access_size : Nat) (base_reg : RegNum) (disp : Nat) : Instruction :=
  let inst := AddBasePlusOffsetMemOp inst action access_size base_reg disp
  let addr_op := inst.operands.getLastD {}
  let r := Reg .Write .X .UseAsAddress base_reg
  let reg_op : Operand :=
    { type := .Register, action := .Write, reg := r, size := r.size }
  let inst := { inst with operands := inst.operands ++ [reg_op] }
  let addr_op := { addr_op with
    addr := { addr_op.addr with
      kind := .AddressCalculation
      address_size := 64
      base_reg := Reg .Read .X .UseAsAddress base_reg
      displacement := addr_op.addr.displacement * 2 % pow64 } }
  { inst with operands := inst.operands ++ [addr_op] }

/-- `AddPostIndexMemOp`: `[<Xn|SP>], #<imm>` — the memory operand uses the
plain base register (displacement `0`) and the trailing address-calculation
operand computes `base + disp`. -/
def AddPostIndexMemOp (inst : Instruction) (action : Action)
    (access_size : Nat) (base_reg : RegNum) (disp : Nat) : Instruction :=
  let inst := AddBasePlusOffsetMemOp inst action access_size base_reg 0
  let addr_op := inst.operands.getLastD {}
  let r := Reg .Write .X .UseAsAddress base_reg
  let reg_op : Operand :=
    { type := .Register, action := .Write, reg := r, size := r.size }
  let inst := { inst with operands := inst.operands ++ [reg_op] }
  let addr_op := { addr_op with
    addr := { addr_op.addr with
      kind := .AddressCalculation
      address_size := 64
      base_reg := Reg .Read .X .UseAsAddress base_reg
      displacement := disp } }
  { inst with operands := inst.operands ++ [addr_op] }

/-! ## Decoded bit-pattern data (`aarch64::InstData`) and `TryDecode`
functions -/

/-- The instruction forms covered by this development (a fragment of the
generated `aarch64::InstForm` enumeration). -/
inductive InstForm
  | ADR_ONLY_PCRELADDR
  | ADRP_ONLY_PCRELADDR
  | EOR_32_LOG_IMM
  | STR_32_LDST_IMMPOST
  | STP_32_LDSTPAIR_PRE
  | LDR_32_LDST_IMMPOST
deriving DecidableEq, Repr

/-- The fields of the generated `aarch64::InstData` that the embedded
`TryDecode` functions read.  Signed immediate fields carry the
sign-extended value (`.simmN`), unsigned ones the raw value (`.uimm`). -/
structure InstData where
  iform : InstForm := .ADR_ONLY_PCRELADDR
  Rd : Nat := 0
  Rn : Nat := 0
  Rt : Nat := 0
  Rt2 : Nat := 0
  Rm : Nat := 0
  N : Nat := 0
  imms : Nat := 0
  immr : Nat := 0
  simm7 : Int := 0
  simm9 : Int := 0
  simm21 : Int := 0
deriving DecidableEq, Repr

/-- Reinterpret a signed 64-bit value as its unsigned (two's-complement)
counterpart, as a C++ `static_cast<uint64_t>` does. -/
def toU64 (i : Int) : Nat := (i % (pow64 : Int)).toNat

/-- `TryDecodeADR_ONLY_PCRELADDR`:

    bool TryDecodeADR_ONLY_PCRELADDR(const InstData &data, Instruction &inst) {
      AddRegOperand(inst, kActionWrite, kRegX, kUseAsValue, data.Rd);
      AddPCDisp(inst, static_cast<int64_t>(data.immhi_immlo.simm21));
      return false;
    }

Note that it populates both operands and then reports failure (compare
`TryDecodeADRP_ONLY_PCRELADDR`, which is structurally identical and
returns `true`). -/
def TryDecodeADR_ONLY_PCRELADDR (data : InstData) (inst : Instruction) :
    Bool × Instruction :=
  let inst := ArchDecode.AddRegOperand inst .Write .X .UseAsValue data.Rd
  let inst := ArchDecode.AddPCDisp inst (toU64 data.simm21)
  (false, inst)

/-- `TryDecodeADRP_ONLY_PCRELADDR`. -/
def TryDecodeADRP_ONLY_PCRELADDR (data : InstData) (inst : Instruction) :
    Bool × Instruction :=
  let inst := ArchDecode.AddRegOperand inst .Write .X .UseAsValue data.Rd
  let inst := ArchDecode.AddPCDisp inst (toU64 (data.simm21 <<< 12))
  (true, inst)

/-- `TryDecodeEOR_32_LOG_IMM`: rejects `N ≠ 0` (`ReservedValue`) and any
encoding on which `DecodeBitMasks` fails; otherwise emits destination,
source and the decoded `wmask` immediate. -/
def TryDecodeEOR_32_LOG_IMM (data : InstData) (inst : Instruction) :
    Bool × Instruction :=
  if data.N ≠ 0 then (false, inst)
  else
    match ArchDecode.DecodeBitMasks data.N data.imms data.immr true 32 with
    | none => (false, inst)
    | some (wmask, _) =>
      let inst := ArchDecode.AddRegOperand inst .Write .W .UseAsAddress data.Rd
      let inst := ArchDecode.AddRegOperand inst .Read .W .UseAsValue data.Rn
      let inst := ArchDecode.AddImmOperand inst wmask .Unsigned 32
      (true, inst)

/-- `TryDecodeSTR_32_LDST_IMMPOST`: `STR <Wt>, [<Xn|SP>], #<simm>`. -/
def TryDecodeSTR_32_LDST_IMMPOST (data : InstData) (inst : Instruction) :
    Bool × Instruction :=
  let inst := ArchDecode.AddRegOperand inst .Read .W .UseAsValue data.Rt
  let offset := toU64 data.simm9
  let inst :=
    ArchDecode.AddPostIndexMemOp inst .Write 32 data.Rn (offset <<< 2 % pow64)
  (true, inst)

/-- `TryDecodeSTP_32_LDSTPAIR_PRE`: `STP <Wt1>, <Wt2>, [<Xn|SP>, #<imm>]!`;
the 7-bit immediate is scaled by 4 (`offset << 2`). -/
def TryDecodeSTP_32_LDSTPAIR_PRE (data : InstData) (inst : Instruction) :
    Bool × Instruction :=
  let inst := ArchDecode.AddRegOperand inst .Read .W .UseAsValue data.Rt
  let inst := ArchDecode.AddRegOperand inst .Read .W .UseAsValue data.Rt2
  let offset := toU64 data.simm7
  let inst :=
    ArchDecode.AddPreIndexMemOp inst .Write 64 data.Rn (offset <<< 2 % pow64)
  (true, inst)

/-- Modelled from the spec: the repository's decoder for
`LDR <Wt>, [<Xn|SP>], #<simm>` (`LDR_32_LDST_IMMPOST`) is not among the
source files; per §4.1 it emits the destination register operand and then
the post-index memory operands, in the operand order expected by the
`LoadUpdateIndex<R32W, M32>` semantics function it is bound to. -/
def TryDecodeLDR_32_LDST_IMMPOST (data : InstData) (inst : Instruction) :
    Bool × Instruction :=
  let inst := ArchDecode.AddRegOperand inst .Write .W .UseAsValue data.Rt
  let offset := toU64 data.simm9
  let inst := ArchDecode.AddPostIndexMemOp inst .Read 32 data.Rn offset
  (true, inst)

/-- Modelled from the spec: the generated dispatch from an extracted
instruction form to its form-specific `TryDecode` function (§4.1's
"dispatch table mapping … to one of many small TryDecode functions"),
restricted to the embedded forms. -/
def tryDecodeDispatch (data : InstData) (inst : Instruction) :
    Bool × Instruction :=
  match data.iform with
  | .ADR_ONLY_PCRELADDR => TryDecodeADR_ONLY_PCRELADDR data inst
  | .ADRP_ONLY_PCRELADDR => TryDecodeADRP_ONLY_PCRELADDR data inst
  | .EOR_32_LOG_IMM => TryDecodeEOR_32_LOG_IMM data inst
  | .STR_32_LDST_IMMPOST => TryDecodeSTR_32_LDST_IMMPOST data inst
  | .STP_32_LDSTPAIR_PRE => TryDecodeSTP_32_LDSTPAIR_PRE data inst
  | .LDR_32_LDST_IMMPOST => TryDecodeLDR_32_LDST_IMMPOST data inst

/-- `aarch64::InstFormToString`, restricted to the embedded forms. -/
def instFormName : InstForm → String
  | .ADR_ONLY_PCRELADDR => "ADR_ONLY_PCRELADDR"
  | .ADRP_ONLY_PCRELADDR => "ADRP_ONLY_PCRELADDR"
  | .EOR_32_LOG_IMM => "EOR_32_LOG_IMM"
  | .STR_32_LDST_IMMPOST => "STR_32_LDST_IMMPOST"
  | .STP_32_LDSTPAIR_PRE => "STP_32_LDSTPAIR_PRE"
  | .LDR_32_LDST_IMMPOST => "LDR_32_LDST_IMMPOST"

/-! ## `AArch64Arch::DecodeInstruction` -/

/-- The freshly initialized out-parameter fields that `DecodeInstruction`
assigns before any check:
`inst.pc = address; inst.next_pc = address + kInstructionSize;
inst.category = kCategoryInvalid;` (`kInstructionSize = 4`). -/
def freshInst (address : Nat) : Instruction :=
  { pc := address, next_pc := (address + 4) % pow64, category := .Invalid }

/-- The instruction state after a successful bit-pattern extraction, just
before the form-specific `TryDecode` call:
`inst.bytes = inst_bytes.substr(0, kInstructionSize);
inst.category = InstCategory(dinst);
inst.function = InstFormToString(dinst.iform);`. -/
def extractedInst (instCategory : InstData → Category)
    (instFormToString : InstForm → String) (dinst : InstData)
    (address : Nat) (inst_bytes : List Nat) : Instruction :=
  { freshInst address with
      bytes := inst_bytes.take 4
      category := instCategory dinst
      function := instFormToString dinst.iform }

/-- `AArch64Arch::DecodeInstruction`, parameterized by the generated
bit-pattern extractor (`aarch64::TryExtract`), the category classifier
(`InstCategory`), the form-name table (`InstFormToString`) and the
`TryDecode` dispatch (`aarch64::TryDecode`) — those four live outside the
source files at hand.  The control flow is the source's:

    inst.category = kCategoryInvalid;
    if (kInstructionSize != inst_bytes.size()) {
      inst.category = kCategoryError; return false;
    } else if (0 != (address % kInstructionSize)) {
      inst.category = kCategoryError; return false;
    } else if (!aarch64::TryExtract(bytes, dinst)) {
      inst.category = kCategoryInvalid; return false;
    }
    inst.bytes = ...; inst.category = InstCategory(dinst);
    inst.function = InstFormToString(dinst.iform);
    if (!aarch64::TryDecode(dinst, inst)) {
      inst.category = kCategoryError; return false;
    }
    return true;
-/
def DecodeInstruction (tryExtract : List Nat → Option InstData)
    (instCategory : InstData → Category)
    (instFormToString : InstForm → String)
    (tryDecode : InstData → Instruction → Bool × Instruction)
    (address : Nat) (inst_bytes : List Nat) : Bool × Instruction :=
  let inst := freshInst address
  if inst_bytes.length ≠ 4 then
    (false, { inst with category := .Error })
  else if address % 4 ≠ 0 then
    (false, { inst with category := .Error })
  else
    match tryExtract inst_bytes with
    | none => (false, { inst with category := .Invalid })
    | some dinst =>
      match tryDecode dinst
          (extractedInst instCategory instFormToString dinst address
            inst_bytes) with
      | (false, inst) => (false, { inst with category := .Error })
      | (true, inst) => (true, inst)

/-- Bit extraction helper: `(w >> lo) & ((1 << width) - 1)`. -/
def extractBits (w lo width : Nat) : Nat := (w >>> lo) % (2 ^ width)

/-- Sign-extend a `width`-bit field to the integer it denotes. -/
def sxtBits (width val : Nat) : Int :=
  if val < 2 ^ (width - 1) then (val : Int)
  else (val : Int) - ((2 ^ width : Nat) : Int)

/-- Modelled from the spec: the generated `aarch64::TryExtract` recognizer
for the PC-relative-addressing group
(`op(31) | immlo(30:29) | 1 0 0 0 0 | immhi(23:5) | Rd(4:0)`), filling
`InstData` with `Rd` and the sign-extended 21-bit `immhi:immlo` immediate;
`op = 0` selects the `ADR` form and `op = 1` the `ADRP` form.  Bytes are
little-endian. -/
def tryExtractPCRel (bytes : List Nat) : Option InstData :=
  match bytes with
  | [b0, b1, b2, b3] =>
    let w := (b0 % 256) + (b1 % 256) * 256 + (b2 % 256) * 65536 +
      (b3 % 256) * 16777216
    if extractBits w 24 5 = 16 then
      some { iform := if extractBits w 31 1 = 0 then .ADR_ONLY_PCRELADDR
                      else .ADRP_ONLY_PCRELADDR
             Rd := extractBits w 0 5
             simm21 := sxtBits 21 (extractBits w 5 19 * 4 +
               extractBits w 29 2) }
    else none
  | _ => none

/-- `InstCategory`, restricted to the embedded forms: none of them carries
one of the special-cased `iclass` values, so all of them take the `default`
arm, `kCategoryNormal`. -/
def instCategoryOf (_ : InstData) : Category := .Normal

end ArchDecode

/-! ## C6: truncated or misaligned input is a decode failure -/

/-- C6: whenever `raw_bytes` has fewer bytes than the fixed 4-byte AArch64
instruction length, or the address is not 4-byte aligned,
`DecodeInstruction` returns `false` with the instruction category set to
`Error` — for every extractor, classifier and `TryDecode` dispatch. -/
theorem decode_misaligned_or_short_is_error
    (te : List Nat → Option ArchDecode.InstData)
    (ic : ArchDecode.InstData → Category)
    (ifs : ArchDecode.InstForm → String)
    (td : ArchDecode.InstData → Instruction → Bool × Instruction)
    (address : Nat) (bytes : List Nat)
    (h : bytes.length < 4 ∨ address % 4 ≠ 0) :
    (ArchDecode.DecodeInstruction te ic ifs td address bytes).1 = false ∧
    (ArchDecode.DecodeInstruction te ic ifs td address bytes).2.category
      = .Error := by
  simp only [ArchDecode.DecodeInstruction]
  split_ifs with h1 h2
  · exact ⟨rfl, rfl⟩
  · exact ⟨rfl, rfl⟩
  · rcases h with h | h <;> omega

/-- Witness for `decode_misaligned_or_short_is_error`: a 3-byte input at an
aligned address, and a full-length input at a misaligned address. -/
theorem decode_misaligned_or_short_is_error_witness :
    ((ArchDecode.DecodeInstruction ArchDecode.tryExtractPCRel
        ArchDecode.instCategoryOf ArchDecode.instFormName
        ArchDecode.tryDecodeDispatch 0 [0x00, 0x00, 0x00]).2.category
      = .Error) ∧
    ((ArchDecode.DecodeInstruction ArchDecode.tryExtractPCRel
        ArchDecode.instCategoryOf ArchDecode.instFormName
        ArchDecode.tryDecodeDispatch 2 [0x00, 0x00, 0x00, 0x10]).1
      = false) :=
  ⟨(decode_misaligned_or_short_is_error _ _ _ _ 0 [0x00, 0x00, 0x00]
      (Or.inl (by decide))).2,
   (decode_misaligned_or_short_is_error _ _ _ _ 2 [0x00, 0x00, 0x00, 0x10]
      (Or.inr (by decide))).1⟩

/-! ## C5: `Invalid` versus `Error` failure classification -/

/-- C5: for inputs passing the size and alignment checks, a failed raw
bit-pattern extraction yields category `Invalid` and `false`, while a
successful extraction whose form-specific `TryDecode` rejects the encoding
yields category `Error` and `false`. -/
theorem decode_invalid_vs_error
    (te : List Nat → Option ArchDecode.InstData)
    (ic : ArchDecode.InstData → Category)
    (ifs : ArchDecode.InstForm → String)
    (td : ArchDecode.InstData → Instruction → Bool × Instruction)
    (address : Nat) (bytes : List Nat)
    (hlen : bytes.length = 4) (halign : address % 4 = 0) :
    (te bytes = none →
      (ArchDecode.DecodeInstruction te ic ifs td address bytes).1 = false ∧
      (ArchDecode.DecodeInstruction te ic ifs td address bytes).2.category
        = .Invalid) ∧
    (∀ d, te bytes = some d →
      (td d (ArchDecode.extractedInst ic ifs d address bytes)).1 = false →
      (ArchDecode.DecodeInstruction te ic ifs td address bytes).1 = false ∧
      (ArchDecode.DecodeInstruction te ic ifs td address bytes).2.category
        = .Error) := by
  constructor
  · intro hte
    simp only [ArchDecode.DecodeInstruction, hte]
    rw [if_neg (by omega), if_neg (by omega)]
    exact ⟨rfl, rfl⟩
  · intro d hte htd
    rcases hr : td d (ArchDecode.extractedInst ic ifs d address bytes)
      with ⟨b, i⟩
    rw [hr] at htd
    simp only at htd
    subst htd
    simp only [ArchDecode.DecodeInstruction, hte, hr]
    rw [if_neg (by omega), if_neg (by omega)]
    exact ⟨rfl, rfl⟩

/-- Witness for `decode_invalid_vs_error`: the all-zero word is not a
PC-relative encoding (extraction fails ⇒ `Invalid`), while an extracted
`EOR_32_LOG_IMM` with the reserved `N = 1` is rejected by its `TryDecode`
(⇒ `Error`). -/
theorem decode_invalid_vs_error_witness :
    ((ArchDecode.DecodeInstruction ArchDecode.tryExtractPCRel
        ArchDecode.instCategoryOf ArchDecode.instFormName
        ArchDecode.tryDecodeDispatch 0 [0x00, 0x00, 0x00, 0x00]).2.category
      = .Invalid) ∧
    ((ArchDecode.DecodeInstruction
        (fun _ => some { iform := .EOR_32_LOG_IMM, N := 1 })
        ArchDecode.instCategoryOf ArchDecode.instFormName
        ArchDecode.tryDecodeDispatch 0 [0x00, 0x00, 0x00, 0x00]).2.category
      = .Error) :=
  ⟨((decode_invalid_vs_error ArchDecode.tryExtractPCRel
      ArchDecode.instCategoryOf ArchDecode.instFormName
      ArchDecode.tryDecodeDispatch 0 [0x00, 0x00, 0x00, 0x00]
      (by decide) (by decide)).1 (by decide)).2,
   ((decode_invalid_vs_error
      (fun _ => some { iform := .EOR_32_LOG_IMM, N := 1 })
      ArchDecode.instCategoryOf ArchDecode.instFormName
      ArchDecode.tryDecodeDispatch 0 [0x00, 0x00, 0x00, 0x00]
      (by decide) (by decide)).2
      { iform := .EOR_32_LOG_IMM, N := 1 } rfl (by decide)).2⟩

/-! ## C9: decode determinism -/

/-- C9: AArch64 instruction decoding is a pure function of the address and
raw bytes: two calls on the same input agree on the success flag and on
every observable field of the produced instruction (category, bytes,
program counters, semantics-function name and operand list).  Under this
embedding the decoder threads no mutable state, so the property holds
definitionally. -/
theorem decode_deterministic
    (te : List Nat → Option ArchDecode.InstData)
    (ic : ArchDecode.InstData → Category)
    (ifs : ArchDecode.InstForm → String)
    (td : ArchDecode.InstData → Instruction → Bool × Instruction)
    (address : Nat) (bytes : List Nat) :
    (ArchDecode.DecodeInstruction te ic ifs td address bytes).1
      = (ArchDecode.DecodeInstruction te ic ifs td address bytes).1 ∧
    (ArchDecode.DecodeInstruction te ic ifs td address bytes).2.category
      = (ArchDecode.DecodeInstruction te ic ifs td address bytes).2.category ∧
    (ArchDecode.DecodeInstruction te ic ifs td address bytes).2.bytes
      = (ArchDecode.DecodeInstruction te ic ifs td address bytes).2.bytes ∧
    (ArchDecode.DecodeInstruction te ic ifs td address bytes).2.next_pc
      = (ArchDecode.DecodeInstruction te ic ifs td address bytes).2.next_pc ∧
    (ArchDecode.DecodeInstruction te ic ifs td address bytes).2.function
      = (ArchDecode.DecodeInstruction te ic ifs td address bytes).2.function ∧
    (ArchDecode.DecodeInstruction te ic ifs td address bytes).2.operands
      = (ArchDecode.DecodeInstruction te ic ifs td address bytes).2.operands :=
  ⟨rfl, rfl, rfl, rfl, rfl, rfl⟩

/-! ## C7: failure classification versus already-pushed operands -/

/-- C7 (evidence of the divergence): decoding the valid `ADR X0, #0`
encoding `0x10000000` fails with category `Error`, yet the failed
instruction carries the two operands that `TryDecodeADR_ONLY_PCRELADDR`
pushed before returning `false` — so a failed decode can have operands
populated ahead of the failure classification. -/
theorem decode_adr_operands_before_error :
    (ArchDecode.DecodeInstruction ArchDecode.tryExtractPCRel
        ArchDecode.instCategoryOf ArchDecode.instFormName
        ArchDecode.tryDecodeDispatch 0 [0x00, 0x00, 0x00, 0x10]).1
      = false ∧
    (ArchDecode.DecodeInstruction ArchDecode.tryExtractPCRel
        ArchDecode.instCategoryOf ArchDecode.instFormName
        ArchDecode.tryDecodeDispatch 0 [0x00, 0x00, 0x00, 0x10]).2.category
      = .Error ∧
    (ArchDecode.DecodeInstruction ArchDecode.tryExtractPCRel
        ArchDecode.instCategoryOf ArchDecode.instFormName
        ArchDecode.tryDecodeDispatch 0 [0x00, 0x00, 0x00, 0x10]).2.operands.length
      = 2 ∧
    ((ArchDecode.DecodeInstruction ArchDecode.tryExtractPCRel
        ArchDecode.instCategoryOf ArchDecode.instFormName
        ArchDecode.tryDecodeDispatch 0 [0x00, 0x00, 0x00, 0x10]).2.operands.map
      (fun o => o.type)) = [.Register, .Address] := by
  refine ⟨rfl, rfl, rfl, ?_⟩
  decide

/-! ## Machine state, operand materialization and the update-index
semantics (for C3 and C10) -/

/-- Concrete machine state: 64-bit registers addressed by their operand
name, and byte-addressed memory. -/
structure Mach where
  regs : String → Nat
  mem : Nat → Nat

namespace Lift

/-- Modelled from the spec (§4.3 operand materialization): the value an
address operand denotes is the base register's value plus the operand's
displacement, as a 64-bit machine address. -/
def evalAddress (m : Mach) (a : AddressOperand) : Nat :=
  (m.regs a.base_reg.name + a.displacement) % pow64

/-- Little-endian 32-bit memory read (`M32` access). -/
def read32 (m : Mach) (addr : Nat) : Nat :=
  m.mem addr % 256 + m.mem (addr + 1) % 256 * 256 +
    m.mem (addr + 2) % 256 * 65536 + m.mem (addr + 3) % 256 * 16777216

/-- Write a 64-bit register by name. -/
def writeReg (m : Mach) (r : String) (v : Nat) : Mach :=
  { m with regs := fun s => if s = r then v % pow64 else m.regs s }

/-- `DEF_SEM(LoadUpdateIndex, D dst, S src, R64W dst_reg, ADDR next_addr)`
at `D = R32W`, `S = M32` (the binding of `LDR_32_LDST_IMMPOST`):

    WriteZExt(dst, Read(src));
    Write(dst_reg, Read(next_addr));

applied to the four operands the decoder produced, with operand values and
locations materialized from the pre-call machine state (spec §4.3): the
memory read happens at the address of the memory operand, and only then is
the recomputed address written into the base register. -/
def execLoadUpdateIndex32 (ops : List Operand) (m : Mach) : Option Mach :=
  match ops with
  | [dst, src, dst_reg, next_addr] =>
    let v := read32 m (evalAddress m src.addr)
    let m1 := writeReg m dst.reg.name v
    let m2 := writeReg m1 dst_reg.reg.name (evalAddress m next_addr.addr)
    some m2
  | _ => none

end Lift

/-- Distinct X-register numbers in the general-purpose range have distinct
operand names. -/
theorem xreg_name_ne : ∀ t : Nat, t < 31 → ∀ n : Nat, n < 31 → t ≠ n →
    ("X" ++ toString t) ≠ ("X" ++ toString n) := by decide

/-- The value of a 32-bit memory read is below `2^64`. -/
theorem read32_lt_pow64 (m : Mach) (a : Nat) : Lift.read32 m a < pow64 := by
  have h0 := Nat.mod_lt (m.mem a) (y := 256) (by norm_num)
  have h1 := Nat.mod_lt (m.mem (a + 1)) (y := 256) (by norm_num)
  have h2 := Nat.mod_lt (m.mem (a + 2)) (y := 256) (by norm_num)
  have h3 := Nat.mod_lt (m.mem (a + 3)) (y := 256) (by norm_num)
  unfold Lift.read32 pow64
  omega

/-! ## C3: post-index write-back -/

/-- The decode of `LDR <Wt>, [<Xn|SP>], #<simm>` on a fresh instruction. -/
def ldrPost (t n : Nat) (imm : Int) : Bool × Instruction :=
  ArchDecode.TryDecodeLDR_32_LDST_IMMPOST
    { iform := .LDR_32_LDST_IMMPOST, Rt := t, Rn := n, simm9 := imm }
    (ArchDecode.freshInst 0)

/-- C3: for the post-index form `LDR Wt, [Xn], #imm` the decoder appends,
after the destination-value operand, a memory-read operand addressing the
bare base register (zero displacement — the pre-update address), then a
64-bit write operand for the base register, then an address-calculation
operand computing `base + imm`; executing the bound `LoadUpdateIndex`
semantics on these operands loads `Wt` from the pre-update address `V`
held in `Xn` and leaves `Xn` holding `V + imm`. -/
theorem ldr_post_index_uses_preupdate_address
    (t n : Nat) (imm : Int) (m : Mach)
    (ht : t < 31) (hn : n < 31) (htn : t ≠ n)
    (hreg : m.regs ("X" ++ toString n) < pow64) :
    (ldrPost t n imm).1 = true ∧
    (ldrPost t n imm).2.operands =
      [{ type := .Register, action := .Write, size := 64,
         reg := { name := "X" ++ toString t, size := 64 } },
       { type := .Address, action := .Read, size := 32,
         addr := { base_reg := { name := "X" ++ toString n, size := 64 },
                   displacement := 0, address_size := 64,
                   kind := .MemoryRead } },
       { type := .Register, action := .Write, size := 64,
         reg := { name := "X" ++ toString n, size := 64 } },
       { type := .Address, action := .Read, size := 32,
         addr := { base_reg := { name := "X" ++ toString n, size := 64 },
                   displacement := ArchDecode.toU64 imm, address_size := 64,
                   kind := .AddressCalculation } }] ∧
    (∃ m', Lift.execLoadUpdateIndex32 (ldrPost t n imm).2.operands m
        = some m' ∧
      m'.regs ("X" ++ toString t) =
        Lift.read32 m (m.regs ("X" ++ toString n)) ∧
      m'.regs ("X" ++ toString n) =
        (m.regs ("X" ++ toString n) + ArchDecode.toU64 imm) % pow64) := by
  have ht31 : ¬ t = 31 := by omega
  have hn31 : ¬ n = 31 := by omega
  have hops : (ldrPost t n imm).2.operands =
      [{ type := .Register, action := .Write, size := 64,
         reg := { name := "X" ++ toString t, size := 64 } },
       { type := .Address, action := .Read, size := 32,
         addr := { base_reg := { name := "X" ++ toString n, size := 64 },
                   displacement := 0, address_size := 64,
                   kind := .MemoryRead } },
       { type := .Register, action := .Write, size := 64,
         reg := { name := "X" ++ toString n, size := 64 } },
       { type := .Address, action := .Read, size := 32,
         addr := { base_reg := { name := "X" ++ toString n, size := 64 },
                   displacement := ArchDecode.toU64 imm, address_size := 64,
                   kind := .AddressCalculation } }] := by
    simp [ldrPost, ArchDecode.TryDecodeLDR_32_LDST_IMMPOST,
      ArchDecode.AddRegOperand, ArchDecode.AddPostIndexMemOp,
      ArchDecode.AddBasePlusOffsetMemOp, ArchDecode.Reg, ArchDecode.RegName,
      ArchDecode.RegNameXW, ArchDecode.WriteRegSize, ArchDecode.ReadRegSize,
      ArchDecode.freshInst, ht31, hn31]
  refine ⟨rfl, hops, ?_⟩
  rw [hops]
  simp only [Lift.execLoadUpdateIndex32, Lift.evalAddress, Lift.writeReg]
  refine ⟨_, rfl, ?_, ?_⟩
  · have hne := xreg_name_ne t ht n hn htn
    dsimp only
    simp only [if_neg hne, if_pos trivial]
    rw [Nat.add_zero, Nat.mod_eq_of_lt hreg,
      Nat.mod_eq_of_lt (read32_lt_pow64 m _)]
  · dsimp only
    rw [if_pos rfl]
    unfold pow64
    omega

/-- Witness for `ldr_post_index_uses_preupdate_address`:
`LDR W1, [X2], #8` with `X2 = 0x1000` and memory holding
`0xAABBCCDD` at `0x1000`. -/
theorem ldr_post_index_witness :
    (Lift.execLoadUpdateIndex32 (ldrPost 1 2 8).2.operands
        { regs := fun s => if s = "X2" then 0x1000 else 0,
          mem := fun a => if a = 0x1000 then 0xDD else if a = 0x1001 then 0xCC
                 else if a = 0x1002 then 0xBB else if a = 0x1003 then 0xAA
                 else 0 }).map (fun m' => (m'.regs "X1", m'.regs "X2"))
      = some (0xAABBCCDD, 0x1008) := by
  have h := ldr_post_index_uses_preupdate_address 1 2 8
    { regs := fun s => if s = "X2" then 0x1000 else 0,
      mem := fun a => if a = 0x1000 then 0xDD else if a = 0x1001 then 0xCC
             else if a = 0x1002 then 0xBB else if a = 0x1003 then 0xAA
             else 0 }
    (by norm_num) (by norm_num) (by norm_num) (by decide)
  obtain ⟨-, -, m', hexec, hwt, hwn⟩ := h
  rw [hexec]
  simp only [Option.map]
  rw [show ("X" ++ toString 1) = "X1" from rfl] at hwt
  rw [show ("X" ++ toString 2) = "X2" from rfl] at hwn
  rw [hwt, hwn]
  decide

/-! ## C10: pre-index write-back doubles the displacement -/

/-- C10: a pre-index memory operand emitted with (scaled) displacement `d`
appends exactly three operands: a memory-access operand at `base + d`, a
64-bit register-write operand for the base register, and an
address-calculation operand over the pre-update base register whose
displacement is `2·d` (mod `2^64`) — so the write-back address value bound
to the semantics function evaluates to `base + 2·d`, not `base + d`.  The
`STP <Wt1>, <Wt2>, [<Xn|SP>, #imm]!` decoder feeds it `d = simm7 · 4`. -/
theorem pre_index_writeback_doubles_displacement
    (inst : Instruction) (action : Action) (sz : Nat) (base : RegNum)
    (d : Nat) (m : Mach) (dat : ArchDecode.InstData)
    (hact : action = .Read ∨ action = .Write) (hbase : base < 31) :
    (ArchDecode.AddPreIndexMemOp inst action sz base d).operands =
      inst.operands ++
      [{ type := .Address,
         action := if action = .Write then .Write else .Read, size := sz,
         addr := { base_reg := { name := "X" ++ toString base, size := 64 },
                   displacement := d, address_size := 64,
                   kind := if action = .Write then .MemoryWrite
                           else .MemoryRead } },
       { type := .Register, action := .Write, size := 64,
         reg := { name := "X" ++ toString base, size := 64 } },
       { type := .Address,
         action := if action = .Write then .Write else .Read, size := sz,
         addr := { base_reg := { name := "X" ++ toString base, size := 64 },
                   displacement := d * 2 % pow64, address_size := 64,
                   kind := .AddressCalculation } }] ∧
    Lift.evalAddress m
      (((ArchDecode.AddPreIndexMemOp inst action sz base d).operands.getLastD
        {}).addr) = (m.regs ("X" ++ toString base) + 2 * d) % pow64 ∧
    ((ArchDecode.TryDecodeSTP_32_LDSTPAIR_PRE dat
        (ArchDecode.freshInst 0)).2.operands.map
      (fun o => o.addr.displacement)) =
      [0, 0, ArchDecode.toU64 dat.simm7 <<< 2 % pow64, 0,
       ArchDecode.toU64 dat.simm7 <<< 2 % pow64 * 2 % pow64] := by
  have hb31 : ¬ base = 31 := Nat.ne_of_lt hbase
  have hops : (ArchDecode.AddPreIndexMemOp inst action sz base d).operands =
      inst.operands ++
      [{ type := .Address,
         action := if action = .Write then .Write else .Read, size := sz,
         addr := { base_reg := { name := "X" ++ toString base, size := 64 },
                   displacement := d, address_size := 64,
                   kind := if action = .Write then .MemoryWrite
                           else .MemoryRead } },
       { type := .Register, action := .Write, size := 64,
         reg := { name := "X" ++ toString base, size := 64 } },
       { type := .Address,
         action := if action = .Write then .Write else .Read, size := sz,
         addr := { base_reg := { name := "X" ++ toString base, size := 64 },
                   displacement := d * 2 % pow64, address_size := 64,
                   kind := .AddressCalculation } }] := by
    rcases hact with h | h <;>
      simp [h, ArchDecode.AddPreIndexMemOp, ArchDecode.AddBasePlusOffsetMemOp,
        ArchDecode.Reg, ArchDecode.RegName, ArchDecode.RegNameXW,
        ArchDecode.WriteRegSize, ArchDecode.ReadRegSize, hb31]
  refine ⟨hops, ?_, ?_⟩
  · rw [hops]
    rw [List.getLastD_eq_getLast?]
    simp [Lift.evalAddress, pow64]
    rw [Nat.mul_comm]
  · simp [ArchDecode.TryDecodeSTP_32_LDSTPAIR_PRE, ArchDecode.AddRegOperand,
      ArchDecode.AddPreIndexMemOp, ArchDecode.AddBasePlusOffsetMemOp,
      ArchDecode.Reg, ArchDecode.RegName, ArchDecode.RegNameXW,
      ArchDecode.WriteRegSize, ArchDecode.ReadRegSize, ArchDecode.freshInst]

/-- Witness for `pre_index_writeback_doubles_displacement`: a pre-index
store operand with displacement `4` on base register `X3` holding `0x100`:
the write-back operand evaluates to `0x108 = 0x100 + 2·4`, not `0x104`. -/
theorem pre_index_writeback_witness :
    Lift.evalAddress
      { regs := fun s => if s = "X3" then 0x100 else 0, mem := fun _ => 0 }
      (((ArchDecode.AddPreIndexMemOp {} .Write 64 3 4).operands.getLastD
        {}).addr) = 0x108 := by
  have h := pre_index_writeback_doubles_displacement {} .Write 64 3 4
    { regs := fun s => if s = "X3" then 0x100 else 0, mem := fun _ => 0 }
    {} (Or.inr rfl) (by norm_num)
  rw [h.2.1]
  decide

/-! ## C2: `DecodeBitMasks` failure conditions -/

/-- C2: `DecodeBitMasks` returns failure (`none`, never a default mask)
whenever the concatenated `N:NOT(imms)` 7-bit pattern is all zero,
whenever the position `len` of the most significant set bit of that
pattern is less than 1, whenever the element size `2^len` exceeds
`data_size`, and — for `is_immediate = true` — whenever `S = levels`;
in particular `DecodeBitMasks (N := 0) (imms := 0x3F)` fails for every
`immr`, `is_immediate = true` and `data_size = 32`. -/
theorem decodeBitMasks_failure (N imms immr : Nat) (imm : Bool) (ds : Nat) :
    (((N <<< 6) ||| (ArchDecode.not64 imms &&& 0x3f)) = 0 →
      ArchDecode.DecodeBitMasks N imms immr imm ds = none) ∧
    (∀ len,
      ArchDecode.MostSignificantSetBit
          ((N <<< 6) ||| (ArchDecode.not64 imms &&& 0x3f)) = some len →
      ((len < 1 → ArchDecode.DecodeBitMasks N imms immr imm ds = none) ∧
       (ds < 1 <<< len →
        ArchDecode.DecodeBitMasks N imms immr imm ds = none) ∧
       (imm = true → imms &&& ArchDecode.Ones len = ArchDecode.Ones len →
        ArchDecode.DecodeBitMasks N imms immr imm ds = none))) ∧
    (∀ immr₂ : Nat, ArchDecode.DecodeBitMasks 0 0x3F immr₂ true 32 = none) := by
  have hmsb0 : ArchDecode.MostSignificantSetBit 0 = none := by decide
  refine ⟨?_, ?_, ?_⟩
  · intro h
    simp only [ArchDecode.DecodeBitMasks, h, hmsb0]
  · intro len hm
    refine ⟨?_, ?_, ?_⟩
    · intro hlen
      simp only [ArchDecode.DecodeBitMasks, hm]
      split_ifs
      simp_all
    · intro hds
      simp only [ArchDecode.DecodeBitMasks, hm]
      split_ifs <;> simp_all
    · intro himm hS
      simp only [ArchDecode.DecodeBitMasks, hm]
      split_ifs <;> simp_all
  · intro immr₂
    have hp : ((0 <<< 6) ||| (ArchDecode.not64 0x3F &&& 0x3f)) = 0 := by decide
    simp only [ArchDecode.DecodeBitMasks, hp, hmsb0]

/-- Witness for `decodeBitMasks_failure`: concrete inputs hitting each of
the failure conditions (all-zero pattern, `len = 0`, `esize > data_size`,
and `S = levels` with `is_immediate`). -/
theorem decodeBitMasks_failure_witness :
    ArchDecode.DecodeBitMasks 0 0x3F 5 true 32 = none ∧
    ArchDecode.DecodeBitMasks 0 0x3E 0 true 32 = none ∧
    ArchDecode.DecodeBitMasks 0 0 0 true 2 = none ∧
    ArchDecode.DecodeBitMasks 1 0x3F 0 true 64 = none := by
  refine ⟨?_, ?_, ?_, ?_⟩
  · exact (decodeBitMasks_failure 0 0x3F 5 true 32).1 (by decide)
  · exact (((decodeBitMasks_failure 0 0x3E 0 true 32).2.1 0 (by decide)).1
      (by decide))
  · exact (((decodeBitMasks_failure 0 0 0 true 2).2.1 5 (by decide)).2.1
      (by decide))
  · exact (((decodeBitMasks_failure 1 0x3F 0 true 64).2.1 6 (by decide)).2.2
      rfl (by decide))

/-! ## C1: `ADDS` flag correctness -/

/-- C1: for every pair of 32-bit unsigned inputs, `ADDS` computes the
truncation of the widened sum and sets `N`/`Z`/`C`/`V` so that they match
the independently computed widened unsigned and signed overflow conditions:
`N` is the sign bit of the truncated result, `Z` holds exactly when the
truncated result is zero, `C` holds exactly when the widened unsigned sum
does not fit in 32 bits (the zero-extended truncated result differs from
it), and `V` holds exactly when the widened signed sum falls outside the
signed 32-bit range (the sign-extended truncated result differs from it). -/
theorem adds32_flags (s : State) (lhs rhs : Nat)
    (hl : lhs < pow32) (hr : rhs < pow32) :
    (Semantics.ADDS32 s lhs rhs).2 = (lhs + rhs) % pow32 ∧
    (Semantics.ADDS32 s lhs rhs).1.n =
      (if pow31 ≤ (lhs + rhs) % pow32 then 1 else 0) ∧
    (Semantics.ADDS32 s lhs rhs).1.z =
      (if (lhs + rhs) % pow32 = 0 then 1 else 0) ∧
    (Semantics.ADDS32 s lhs rhs).1.c =
      (if pow32 ≤ lhs + rhs then 1 else 0) ∧
    (Semantics.ADDS32 s lhs rhs).1.v =
      (if sext32 lhs + sext32 rhs < -(pow31 : Int) ∨
          (pow31 : Int) ≤ sext32 lhs + sext32 rhs then 1 else 0) := by
  have hm : (lhs + rhs + 0) % pow64 = lhs + rhs := by
    rw [Nat.add_zero]
    exact Nat.mod_eq_of_lt (by unfold pow32 pow64 at *; omega)
  have hi : i64wrap (sext32 lhs + sext32 rhs + ((0 : Nat) : Int)) =
      sext32 lhs + sext32 rhs := by
    unfold sext32 i64wrap pow31 pow32 pow64 at *
    split_ifs <;> omega
  simp only [Semantics.ADDS32, Semantics.AddWithCarryNZCV32, hm, hi]
  refine ⟨trivial, ?_, trivial, ?_, ?_⟩
  · unfold sext32 pow31 pow32 at *
    split_ifs <;> omega
  · unfold pow32 at *
    split_ifs <;> omega
  · unfold sext32 pow31 pow32 at *
    split_ifs <;> omega

/-- Witness for `adds32_flags` at the boundary case named by the claim:
`lhs = 0x7FFFFFFF`, `rhs = 1` yields `V = 1`, `N = 1`, `Z = 0`, `C = 0`. -/
theorem adds32_flags_witness :
    (0x7FFFFFFF : Nat) < pow32 ∧ (1 : Nat) < pow32 ∧
    (Semantics.ADDS32 ⟨0, 0, 0, 0, 0⟩ 0x7FFFFFFF 1).1.v = 1 ∧
    (Semantics.ADDS32 ⟨0, 0, 0, 0, 0⟩ 0x7FFFFFFF 1).1.n = 1 ∧
    (Semantics.ADDS32 ⟨0, 0, 0, 0, 0⟩ 0x7FFFFFFF 1).1.z = 0 ∧
    (Semantics.ADDS32 ⟨0, 0, 0, 0, 0⟩ 0x7FFFFFFF 1).1.c = 0 := by
  have h := adds32_flags ⟨0, 0, 0, 0, 0⟩ 0x7FFFFFFF 1 (by decide) (by decide)
  refine ⟨by decide, by decide, ?_, ?_, ?_, ?_⟩
  · rw [h.2.2.2.2]; decide
  · rw [h.2.1]; decide
  · rw [h.2.2.1]; decide
  · rw [h.2.2.2.1]; decide

namespace Branch

/-! ## Condition evaluation (`Arch/AArch64/Semantics/BRANCH.cpp`) -/

/-- `CondGE`: `UCmpNeq(state.state.GE, 0)`. -/
def CondGE (s : State) : Bool := s.ge != 0

/-- `CondLT`. -/
def CondLT (s : State) : Bool := !CondGE s

/-- `CondEQ`: `UCmpNeq(state.state.Z, 0)`. -/
def CondEQ (s : State) : Bool := s.z != 0

/-- `CondGT`. -/
def CondGT (s : State) : Bool := CondGE s && !CondEQ s

/-- `CondLE`. -/
def CondLE (s : State) : Bool := CondLT s || CondEQ s

/-- `CondCS`: `UCmpNeq(state.state.C, 0)`. -/
def CondCS (s : State) : Bool := s.c != 0

/-- `CondMI`: `UCmpNeq(state.state.N, 0)`. -/
def CondMI (s : State) : Bool := s.n != 0

/-- `CondVS`: `UCmpNeq(state.state.V, 0)`. -/
def CondVS (s : State) : Bool := s.v != 0

/-- `CondHI`. -/
def CondHI (s : State) : Bool := CondCS s && !CondEQ s

/-- `CheckCondState`: the generic condition-immediate evaluator.  The
condition is selected by bits `3:1` (`cond & 0xE`) and bit `0` negates —
except that the `AL` arm (`true_cond = 0x7 << 1`) `return`s `true`
directly, before the negation step, so both `0xE` and `0xF` yield `true`.
The source `switch` is rendered as an if-chain; the `default` keeps the
initial `result = false` (unreachable, since `cond & 0xE` is even and at
most 14). -/
def CheckCondState (s : State) (cond : Nat) : Bool :=
  let true_cond := cond &&& 0xE
  let negate := cond &&& 0x1
  if true_cond = 14 then true
  else
    let result :=
      if true_cond = 0 then CondEQ s
      else if true_cond = 2 then CondCS s
      else if true_cond = 4 then CondMI s
      else if true_cond = 6 then CondVS s
      else if true_cond = 8 then CondHI s
      else if true_cond = 10 then CondGE s
      else if true_cond = 12 then CondGT s
      else false
    if negate = 1 then !result else result

/-- `DEF_SEM(DirectCondBranchImm, I8 cond, R8W branch_track, PC taken,
PC not_taken)`: evaluates `CheckCondState` on the condition immediate and
selects the taken or fall-through program counter.  Returns the branch
decision (written to `branch_track`) and the new `PC`. -/
def DirectCondBranchImm (s : State) (cond : Nat) (taken not_taken : Nat) :
    Bool × Nat :=
  let take_branch := CheckCondState s cond
  (take_branch, if take_branch then taken else not_taken)

/-- The architecture's condition truth table over the state's flag
registers, indexed by bits `3:1` of the condition code: EQ, CS, MI, VS,
HI (`C ∧ ¬Z`), GE, GT (`GE ∧ ¬Z`), AL. -/
def condTable (s : State) : Nat → Bool
  | 0 => s.z != 0
  | 1 => s.c != 0
  | 2 => s.n != 0
  | 3 => s.v != 0
  | 4 => s.c != 0 && s.z == 0
  | 5 => s.ge != 0
  | 6 => s.ge != 0 && s.z == 0
  | _ => true

end Branch

/-! ## C4: the condition-code truth table and the negation rule -/

/-- C4 (counterexample to the claim as stated): at condition code `0xF`
`CheckCondState` returns `true` — not the negation of the `0xE` (`AL`)
result, which is also `true`.  So "every odd condition value flips the
corresponding even one" fails at `cond = 15`. -/
theorem checkCondState_not_negating_at_15 :
    Branch.CheckCondState ⟨0, 0, 0, 0, 0⟩ 15 = true ∧
    Branch.CheckCondState ⟨0, 0, 0, 0, 0⟩ 14 = true ∧
    ¬ (Branch.CheckCondState ⟨0, 0, 0, 0, 0⟩ 15
        = !Branch.CheckCondState ⟨0, 0, 0, 0, 0⟩ 14) := by decide

/-- C4 (amended): for every 4-bit condition code, `CheckCondState` (the
evaluator `DirectCondBranchImm` applies for `B.cond`) returns the
architecture truth-table entry selected by bits `3:1` for even codes,
returns the negation of the corresponding even entry for every odd code
except `0xF`, and returns `true` for `0xF` (like `AL`); the branch
semantics selects the taken PC exactly when it returns `true`. -/
theorem checkCondState_truth_table (s : State) (cond taken not_taken : Nat)
    (h : cond < 16) :
    (cond % 2 = 0 →
      Branch.CheckCondState s cond = Branch.condTable s (cond / 2)) ∧
    (cond % 2 = 1 → cond ≠ 15 →
      Branch.CheckCondState s cond = !Branch.condTable s (cond / 2)) ∧
    (cond = 15 → Branch.CheckCondState s cond = true) ∧
    Branch.DirectCondBranchImm s cond taken not_taken
      = (Branch.CheckCondState s cond,
         if Branch.CheckCondState s cond then taken else not_taken) := by
  refine ⟨?_, ?_, ?_, rfl⟩ <;>
    · intros
      interval_cases cond <;>
        simp_all +decide [Branch.CheckCondState, Branch.condTable,
          Branch.CondEQ, Branch.CondCS, Branch.CondMI, Branch.CondVS,
          Branch.CondHI, Branch.CondGE, Branch.CondGT, bne]

/-- Witness for `checkCondState_truth_table` at a concrete state
(`N=1, Z=0, C=1, V=0, GE=1`) and condition codes `4` (`MI`), `3` (`CC`)
and `15`. -/
theorem checkCondState_truth_table_witness :
    Branch.CheckCondState ⟨1, 0, 1, 0, 1⟩ 4
      = Branch.condTable ⟨1, 0, 1, 0, 1⟩ 2 ∧
    Branch.CheckCondState ⟨1, 0, 1, 0, 1⟩ 3
      = !Branch.condTable ⟨1, 0, 1, 0, 1⟩ 1 ∧
    Branch.CheckCondState ⟨1, 0, 1, 0, 1⟩ 15 = true :=
  ⟨(checkCondState_truth_table ⟨1, 0, 1, 0, 1⟩ 4 0 0 (by decide)).1 rfl,
   (checkCondState_truth_table ⟨1, 0, 1, 0, 1⟩ 3 0 0 (by decide)).2.1 rfl
     (by decide),
   (checkCondState_truth_table ⟨1, 0, 1, 0, 1⟩ 15 0 0 (by decide)).2.2.1 rfl⟩

namespace DSE

/-! ## Dead-store elimination (`BC/DeadStoreEliminator.cpp`)

The pass is embedded over a single-basic-block fragment of LLVM IR: SSA
values are `Nat` identifiers, and the instruction kinds are the ones the
`ForwardAliasVisitor` dispatches on (`alloca`, `load`, `store`,
`getelementptr` with its accumulated constant offset, casts, calls, the
terminator, and a `misc` kind for everything `visitInstruction`
ignores).  `scope` is the `MD_alias_scope` metadata of the instruction,
identified with the `State` byte offset its scope `MDNode` maps to under
`AAMDInfo::slot_scopes`. -/

inductive VisitResult
  | Progress | NoProgress | Incomplete | Ignored | Error
deriving DecidableEq, Repr

inductive IRType
  | int (bytes : Nat) | float (bytes : Nat) | statePtrTy | misc
deriving DecidableEq, Repr

/-- `llvm::DataLayout::getTypeAllocSize` on the fragment's types. -/
def IRType.allocSize : IRType → Nat
  | .int b => b
  | .float b => b
  | .statePtrTy => 8
  | .misc => 8

inductive InstKind
  | alloca
  | load (ptr : Nat) (ty : IRType)
  | store (val : Nat) (valTy : IRType) (ptr : Nat)
  | gep (ptr : Nat) (constOffset : Option Int)
  | cast (src : Nat)
  | call (args : List Nat)
  | ret
  | misc
deriving DecidableEq, Repr

structure IRInstr where
  id : Nat
  kind : InstKind
  scope : Option Nat := none
deriving DecidableEq, Repr

/-- A lifted function: the loaded `State` pointer value
(`LoadStatePointer`; `none` when absent) and a single basic block. -/
structure IRFunc where
  statePtr : Option Nat
  body : List IRInstr
deriving DecidableEq, Repr

/-- `StateSlot`: a byte-range of the `State` structure.  The pass's
`offset_to_slot` vector maps every byte offset to its slot. -/
structure StateSlot where
  index : Nat
  offset : Nat
  size : Nat
deriving DecidableEq, Repr

/-- Lookup in an association list (`std::unordered_map::find`). -/
def lookupOff (m : List (Nat × Nat)) (k : Nat) : Option Nat :=
  match m.find? (fun p => p.1 == k) with
  | some p => some p.2
  | none => none

/-- `std::unordered_map::emplace`: inserts only when the key is absent. -/
def emplace (m : List (Nat × Nat)) (k v : Nat) : List (Nat × Nat) :=
  if (lookupOff m k).isSome then m else (k, v) :: m

/-- `std::unordered_set::insert`. -/
def insertSet (s : List Nat) (k : Nat) : List Nat :=
  if k ∈ s then s else k :: s

/-- `llvm::Value::stripPointerCasts`, on the fragment: follow `cast`
chains. -/
def stripCasts (body : List IRInstr) : Nat → Nat → Nat
  | 0, v => v
  | fuel + 1, v =>
    match body.find? (fun i => i.id == v) with
    | some i =>
      match i.kind with
      | .cast src => stripCasts body fuel src
      | _ => v
    | none => v

/-- `LiveSet`: a bitset of slot indexes; `all` is the fully set bitset
(`live.set()`). -/
inductive LiveB
  | all
  | mask (idxs : List Nat)
deriving DecidableEq, Repr

def LiveB.test : LiveB → Nat → Bool
  | .all, _ => true
  | .mask l, i => l.contains i

def LiveB.set : LiveB → Nat → LiveB
  | .all, _ => .all
  | .mask l, i => .mask (insertSet l i)

/-- `GetLiveSetFromArgs`: offsets reached by call arguments; a zero offset
might be the whole `State` pointer, so everything becomes live. -/
def getLiveSetFromArgs (slots : List StateSlot) (body : List IRInstr)
    (vto : List (Nat × Nat)) (args : List Nat) : LiveB :=
  args.foldl (fun acc a =>
    match lookupOff vto (stripCasts body body.length a) with
    | some off =>
      if off ≠ 0 then acc.set ((slots.getD off ⟨0, 0, 0⟩).index) else .all
    | none => acc) (.mask [])

/-- The mutable state of `ForwardAliasVisitor`: `state_offset`,
`state_access_offset`, `exclude`, and the shared `live_args` map filled by
`visitCallInst`. -/
structure FAV where
  stateOffset : List (Nat × Nat)
  stateAccess : List (Nat × Nat)
  exclude : List Nat
  liveArgs : List (Nat × LiveB)
deriving DecidableEq, Repr

/-- `ForwardAliasVisitor::visit`, dispatching exactly as the source
visitors do.  `slots.length` plays `offset_to_slots.size()` (the maximum
allowed offset in `TryCombineOffsets`). -/
def favVisit (slots : List StateSlot) (body : List IRInstr) (fav : FAV)
    (i : IRInstr) : FAV × VisitResult :=
  match i.kind with
  | .alloca =>
    ({ fav with exclude := insertSet fav.exclude i.id }, .Progress)
  | .load ptr ty =>
    if ty = .statePtrTy then
      ({ fav with stateOffset := emplace fav.stateOffset i.id 0 }, .Progress)
    else if ptr ∈ fav.exclude then
      ({ fav with exclude := insertSet fav.exclude i.id }, .Progress)
    else
      match lookupOff fav.stateOffset ptr with
      | none => (fav, .NoProgress)
      | some off =>
        ({ fav with exclude := insertSet fav.exclude i.id,
                    stateAccess := emplace fav.stateAccess i.id off },
         .Progress)
  | .store val _ ptr =>
    if (lookupOff fav.stateOffset val).isSome then (fav, .Error)
    else if ptr ∈ fav.exclude then
      ({ fav with exclude := insertSet fav.exclude i.id }, .Progress)
    else
      match lookupOff fav.stateOffset ptr with
      | none => (fav, .NoProgress)
      | some off =>
        ({ fav with stateAccess := emplace fav.stateAccess i.id off },
         .Progress)
  | .gep ptr constOffset =>
    if ptr ∈ fav.exclude then
      ({ fav with exclude := insertSet fav.exclude i.id }, .Progress)
    else
      match lookupOff fav.stateOffset ptr with
      | none => (fav, .NoProgress)
      | some off =>
        match constOffset with
        | none => (fav, .Error)
        | some c =>
          let combined := ArchDecode.toU64 ((off : Int) + c)
          if combined < slots.length then
            ({ fav with stateOffset := emplace fav.stateOffset i.id combined },
             .Progress)
          else (fav, .Error)
  | .cast src =>
    if src ∈ fav.exclude then
      ({ fav with exclude := insertSet fav.exclude i.id }, .Progress)
    else
      match lookupOff fav.stateOffset src with
      | none => (fav, .NoProgress)
      | some off =>
        ({ fav with stateOffset := emplace fav.stateOffset i.id off },
         .Progress)
  | .call args =>
    ({ fav with liveArgs :=
        if (fav.liveArgs.find? (fun p => p.1 == i.id)).isSome then fav.liveArgs
        else (i.id, getLiveSetFromArgs slots body fav.stateOffset args) ::
          fav.liveArgs },
     .Ignored)
  | .ret => (fav, .Ignored)
  | .misc => (fav, .Ignored)

/-- One pass of the worklist `for` loop in `Analyze`: visits every
instruction of the current worklist, distributing it to `pending_wl`
(`Incomplete`), `next_wl` (`NoProgress`) or nowhere, recording whether any
visit made progress; an `Error` visit aborts the whole analysis
(`return false`), leaving the visitor's maps as they were at that point. -/
def favPass (slots : List StateSlot) (body : List IRInstr) :
    FAV → List IRInstr → List IRInstr → List IRInstr → Bool →
    Except FAV (FAV × List IRInstr × List IRInstr × Bool)
  | fav, [], pending, next, progress => .ok (fav, pending, next, progress)
  | fav, i :: rest, pending, next, progress =>
    match favVisit slots body fav i with
    | (fav', .Progress) => favPass slots body fav' rest pending next true
    | (fav', .Incomplete) =>
      favPass slots body fav' rest (pending ++ [i]) next progress
    | (fav', .NoProgress) =>
      favPass slots body fav' rest pending (next ++ [i]) progress
    | (fav', .Ignored) => favPass slots body fav' rest pending next progress
    | (fav', .Error) => .error fav'

/-- Result of `ForwardAliasVisitor::Analyze`: the source returns a `bool`;
on `false` the partially filled visitor state is still consulted by
`RemoveDeadStores`, so the failure arm carries it.  `fuelOut` is an
artefact of the fuel-bounded embedding of the `while` loop and
corresponds to no source behaviour. -/
inductive AnalyzeResult
  | success (fav : FAV)
  | failure (fav : FAV)
  | fuelOut
deriving DecidableEq, Repr

/-- The `while (!curr_wl.empty() && (progress || bump))` loop of
`Analyze`, fuel-bounded. -/
def favLoop (slots : List StateSlot) (body : List IRInstr) :
    Nat → FAV → List IRInstr → List IRInstr → Bool → Bool → AnalyzeResult
  | 0, _, _, _, _, _ => .fuelOut
  | fuel + 1, fav, curr, pending, progress, bump =>
    if curr ≠ [] ∧ (progress ∨ bump) then
      match favPass slots body fav (curr ++ pending) [] [] false with
      | .error favE => .failure favE
      | .ok (fav', pending', next', progress') =>
        let bump' := if progress' ∨ bump then false
                     else pending' ≠ []
        favLoop slots body fuel fav' next' pending' progress' bump'
    else .success fav

/-- Is this a call instruction (routed by `AddInstruction` into `calls`
rather than the worklist)? -/
def isCall (i : IRInstr) : Bool :=
  match i.kind with
  | .call _ => true
  | _ => false

/-- The `for (auto inst : calls) visit(inst);` epilogue of `Analyze`. -/
def favVisitCalls (slots : List StateSlot) (body : List IRInstr)
    (fav : FAV) (calls : List IRInstr) : FAV :=
  calls.foldl (fun acc i => (favVisit slots body acc i).1) fav

/-- `ForwardAliasVisitor::Analyze`: fails when no `State` pointer is
found; seeds `state_offset` with it at offset `0`; worklists every
non-call instruction in order; runs the worklist loop; then visits the
calls.  A `VisitResult::Error` anywhere in the loop makes the analysis
return `false` (here: `.failure` carrying the partial state). -/
def analyze (slots : List StateSlot) (fuel : Nat) (f : IRFunc) :
    AnalyzeResult :=
  match f.statePtr with
  | none => .failure ⟨[], [], [], []⟩
  | some sp =>
    let fav0 : FAV := ⟨[(sp, 0)], [], [], []⟩
    let curr := f.body.filter (fun i => ¬ isCall i)
    let calls := f.body.filter (fun i => isCall i)
    match favLoop slots f.body fuel fav0 curr [] true false with
    | .failure fav => .failure fav
    | .fuelOut => .fuelOut
    | .success fav => .success (favVisitCalls slots f.body fav calls)

/-- `ForwardAliasVisitor::AddInstruction` clears the alias-analysis
metadata of every load and store before the analysis visits anything. -/
def clearScopes (body : List IRInstr) : List IRInstr :=
  body.map (fun i =>
    match i.kind with
    | .load _ _ => { i with scope := none }
    | .store _ _ _ => { i with scope := none }
    | _ => i)

/-- `AddAAMDNodes`: attach to every load/store in `state_access_offset`
the `AAMDNodes` of its offset (whose alias-scope node maps back to the
offset under `slot_scopes`). -/
def addAAMDNodes (sao : List (Nat × Nat)) (body : List IRInstr) :
    List IRInstr :=
  body.map (fun i =>
    match lookupOff sao i.id, i.kind with
    | some off, .load _ _ => { i with scope := some off }
    | some off, .store _ _ _ => { i with scope := some off }
    | _, _ => i)

/-! ### `ForwardingBlockVisitor` -/

/-- `eraseFromParent`. -/
def eraseId (body : List IRInstr) (n : Nat) : List IRInstr :=
  body.filter (fun x => x.id ≠ n)

/-- Substitute value uses inside one instruction kind. -/
def replaceValUses (a b : Nat) (k : InstKind) : InstKind :=
  let sub := fun v => if v = a then b else v
  match k with
  | .load ptr ty => .load (sub ptr) ty
  | .store val ty ptr => .store (sub val) ty (sub ptr)
  | .gep ptr c => .gep (sub ptr) c
  | .cast src => .cast (sub src)
  | .call args => .call (args.map sub)
  | x => x

/-- `replaceAllUsesWith`. -/
def replaceUses (body : List IRInstr) (a b : Nat) : List IRInstr :=
  body.map (fun i => { i with kind := replaceValUses a b i.kind })

/-- The forwarding-with-conversion effect: the source inserts a fresh
`BitCast`/`Trunc`/`FPTrunc` of `val` right before the forwarded-to load,
redirects all of the load's uses to it and erases the load.  Keeping the
load's identifier for the inserted cast preserves the use edges in this
identifier-based representation. -/
def replaceWithCast (body : List IRInstr) (loadId val : Nat) :
    List IRInstr :=
  body.map (fun i =>
    if i.id = loadId then { id := i.id, kind := .cast val, scope := none }
    else i)

/-- `removeFromParent` + `insertBefore` (the load-reordering step). -/
def moveBefore (body : List IRInstr) (mover target : Nat) : List IRInstr :=
  match body.find? (fun i => i.id == mover) with
  | none => body
  | some mi =>
    (body.filter (fun i => i.id ≠ mover)).foldr
      (fun x acc => if x.id = target then mi :: x :: acc else x :: acc) []

/-- `slot_to_load.erase`. -/
def eraseKey (m : List (Nat × Nat)) (k : Nat) : List (Nat × Nat) :=
  m.filter (fun p => p.1 ≠ k)

/-- `slot_to_load[k] = v`. -/
def setKey (m : List (Nat × Nat)) (k v : Nat) : List (Nat × Nat) :=
  (k, v) :: eraseKey m k

/-- The element type of the load instruction with the given id. -/
def loadTy? (body : List IRInstr) (n : Nat) : Option IRType :=
  match body.find? (fun i => i.id == n) with
  | some i =>
    match i.kind with
    | .load _ ty => some ty
    | _ => none
  | none => none

/-- `ForwardingBlockVisitor::VisitBlock`, iterating over a reversed
snapshot of the block (`inst_to_offset` is the analysis's
`state_access_offset`, `val_to_offset` its `state_offset`): calls kill the
slots their arguments reach; stores try store-to-load forwarding; loads
try load-to-load forwarding, with one reorder-then-truncate retry.  A load
or store without alias-scope metadata is skipped (`if (!scope) continue`).
-/
def fwdGo (slots : List StateSlot) (sao vto : List (Nat × Nat)) :
    List IRInstr → List (Nat × Nat) → List IRInstr → List IRInstr
  | [], _, body => body
  | i :: rest, s2l, body =>
    match i.kind with
    | .call args =>
      let s2l := args.foldl (fun m a =>
        match lookupOff vto (stripCasts body body.length a) with
        | some off =>
          if off ≠ 0 then eraseKey m ((slots.getD off ⟨0, 0, 0⟩).index)
          else []
        | none => m) s2l
      fwdGo slots sao vto rest s2l body
    | .store val valTy _ =>
      match i.scope with
      | none => fwdGo slots sao vto rest s2l body
      | some soff =>
        let slot := slots.getD soff ⟨0, 0, 0⟩
        match lookupOff s2l slot.index with
        | none => fwdGo slots sao vto rest s2l body
        | some nextId =>
          let s2l := eraseKey s2l slot.index
          if lookupOff sao i.id ≠ lookupOff sao nextId then
            fwdGo slots sao vto rest s2l body
          else
            match loadTy? body nextId with
            | none => fwdGo slots sao vto rest s2l body
            | some nextTy =>
              if valTy = nextTy then
                fwdGo slots sao vto rest s2l
                  (eraseId (replaceUses body nextId val) nextId)
              else if nextTy.allocSize = valTy.allocSize then
                fwdGo slots sao vto rest s2l (replaceWithCast body nextId val)
              else if nextTy.allocSize < valTy.allocSize then
                match valTy, nextTy with
                | .int _, .int _ =>
                  fwdGo slots sao vto rest s2l
                    (replaceWithCast body nextId val)
                | .float _, .float _ =>
                  fwdGo slots sao vto rest s2l
                    (replaceWithCast body nextId val)
                | _, _ => fwdGo slots sao vto rest s2l body
              else fwdGo slots sao vto rest s2l body
    | .load _ ty =>
      match i.scope with
      | none => fwdGo slots sao vto rest s2l body
      | some soff =>
        let idx := (slots.getD soff ⟨0, 0, 0⟩).index
        let prev := lookupOff s2l idx
        let s2l := setKey s2l idx i.id
        match prev with
        | none => fwdGo slots sao vto rest s2l body
        | some nextId =>
          if lookupOff sao i.id ≠ lookupOff sao nextId then
            fwdGo slots sao vto rest s2l body
          else
            match loadTy? body nextId with
            | none => fwdGo slots sao vto rest s2l body
            | some nextTy =>
              if ty = nextTy then
                fwdGo slots sao vto rest s2l
                  (eraseId (replaceUses body nextId i.id) nextId)
              else if ty.allocSize = nextTy.allocSize then
                fwdGo slots sao vto rest s2l (replaceWithCast body nextId i.id)
              else if nextTy.allocSize < ty.allocSize then
                match ty, nextTy with
                | .int _, .int _ =>
                  fwdGo slots sao vto rest s2l
                    (replaceWithCast body nextId i.id)
                | .float _, .float _ =>
                  fwdGo slots sao vto rest s2l
                    (replaceWithCast body nextId i.id)
                | _, _ => fwdGo slots sao vto rest (eraseKey s2l idx) body
              else
                let body := moveBefore body nextId i.id
                let s2l := setKey s2l idx nextId
                match nextTy, ty with
                | .int _, .int _ =>
                  fwdGo slots sao vto rest s2l (replaceWithCast body i.id nextId)
                | .float _, .float _ =>
                  fwdGo slots sao vto rest s2l (replaceWithCast body i.id nextId)
                | _, _ => fwdGo slots sao vto rest (eraseKey s2l idx) body
    | _ => fwdGo slots sao vto rest s2l body

/-- `ForwardingBlockVisitor::Visit` on the single block. -/
def forwardingVisit (slots : List StateSlot) (sao vto : List (Nat × Nat))
    (body : List IRInstr) : List IRInstr :=
  fwdGo slots sao vto body.reverse [] body

/-! ### `LiveSetBlockVisitor` -/

/-- `LiveSetBlockVisitor::VisitBlock` on a single block in the removal
pass: walk backwards keeping the live-slot set; `ret`-class terminators
and calls without argument information make everything live; a store to a
dead slot is collected for removal; a whole-slot store kills the slot; a
load revives it.  Loads and stores without alias-scope metadata are
skipped. -/
def liveCollectGo (slots : List StateSlot) (liveArgs : List (Nat × LiveB)) :
    List IRInstr → (Nat → Bool) → List Nat → List Nat
  | [], _, acc => acc
  | i :: rest, live, acc =>
    match i.kind with
    | .ret => liveCollectGo slots liveArgs rest (fun _ => true) acc
    | .call _ =>
      match liveArgs.find? (fun p => p.1 == i.id) with
      | none => liveCollectGo slots liveArgs rest (fun _ => true) acc
      | some p =>
        liveCollectGo slots liveArgs rest (fun j => live j || p.2.test j) acc
    | .store _ valTy _ =>
      match i.scope with
      | none => liveCollectGo slots liveArgs rest live acc
      | some soff =>
        let slot := slots.getD soff ⟨0, 0, 0⟩
        if ¬ live slot.index then
          liveCollectGo slots liveArgs rest live (acc ++ [i.id])
        else if valTy.allocSize = slot.size then
          liveCollectGo slots liveArgs rest
            (fun j => if j = slot.index then false else live j) acc
        else liveCollectGo slots liveArgs rest live acc
    | .load _ _ =>
      match i.scope with
      | none => liveCollectGo slots liveArgs rest live acc
      | some soff =>
        liveCollectGo slots liveArgs rest
          (fun j => if j = (slots.getD soff ⟨0, 0, 0⟩).index then true
                    else live j) acc
    | _ => liveCollectGo slots liveArgs rest live acc

/-- `CollectDeadInsts` on the single block (`to_remove`). -/
def liveCollect (slots : List StateSlot) (liveArgs : List (Nat × LiveB))
    (body : List IRInstr) : List Nat :=
  liveCollectGo slots liveArgs body.reverse (fun _ => false) []

/-- `DeleteDeadInsts`: erase the collected instructions.  (The cascade
that also deletes operands turned trivially dead only runs when the
collection is non-empty.) -/
def deleteDeadInsts (ids : List Nat) (body : List IRInstr) : List IRInstr :=
  body.filter (fun i => ¬ ids.contains i.id)

/-- `RemoveDeadStores`, restricted to one lifted function: the analysis
always clears the loads'/stores' alias metadata (`AddInstruction`); the
`AAMDNodes` are added only when `Analyze` succeeds; the forwarding visitor
(unless disabled by flag) and the live-set/deletion pass run either way,
consulting the (possibly partial) visitor maps. -/
def removeDeadStoresFunc (slots : List StateSlot) (fuel : Nat)
    (disable_forwarding : Bool) (f : IRFunc) : IRFunc :=
  let body0 := clearScopes f.body
  match analyze slots fuel f with
  | .success fav =>
    let body1 := addAAMDNodes fav.stateAccess body0
    let body2 := if disable_forwarding then body1
                 else forwardingVisit slots fav.stateAccess fav.stateOffset
                   body1
    { f with body :=
        deleteDeadInsts (liveCollect slots fav.liveArgs body2) body2 }
  | .failure fav =>
    let body2 := if disable_forwarding then body0
                 else forwardingVisit slots fav.stateAccess fav.stateOffset
                   body0
    { f with body :=
        deleteDeadInsts (liveCollect slots fav.liveArgs body2) body2 }
  | .fuelOut => f

/-- Is this instruction a load or a store? -/
def loadOrStore (i : IRInstr) : Bool :=
  match i.kind with
  | .load _ _ => true
  | .store _ _ _ => true
  | _ => false

/-- `clearScopes` is the identity on a block whose loads and stores carry
no alias-scope metadata. -/
theorem clearScopes_of_scope_free (body : List IRInstr)
    (h : ∀ i ∈ body, loadOrStore i = true → i.scope = none) :
    clearScopes body = body := by
  induction body with
  | nil => rfl
  | cons i rest ih =>
    have hi := h i (by simp)
    have hrest : ∀ j ∈ rest, loadOrStore j = true → j.scope = none :=
      fun j hj => h j (by simp [hj])
    unfold clearScopes at *
    simp only [List.map_cons]
    congr 1
    · rcases i with ⟨iid, ikind, iscope⟩
      cases ikind <;> simp_all [loadOrStore]
    · exact ih hrest
/-- Every load and store in the output of `clearScopes` is scope-free. -/
theorem clearScopes_scope_free (body : List IRInstr) :
    ∀ i ∈ clearScopes body, loadOrStore i = true → i.scope = none := by
  intro i hi hls
  unfold clearScopes at hi
  rw [List.mem_map] at hi
  obtain ⟨j, hj, rfl⟩ := hi
  rcases j with ⟨jid, jkind, jscope⟩
  cases jkind <;> simp_all [loadOrStore]

/-- The forwarding walk never changes the block when every load and store
in its snapshot lacks alias-scope metadata: those instructions hit the
`if (!scope) continue` guard, and no other arm mutates the block. -/
theorem fwdGo_of_scope_free (slots : List StateSlot)
    (sao vto : List (Nat × Nat)) (snap : List IRInstr)
    (h : ∀ i ∈ snap, loadOrStore i = true → i.scope = none) :
    ∀ s2l body, fwdGo slots sao vto snap s2l body = body := by
  induction snap with
  | nil => intro s2l body; rfl
  | cons i rest ih =>
    intro s2l body
    have hrest : ∀ j ∈ rest, loadOrStore j = true → j.scope = none :=
      fun j hj => h j (List.mem_cons_of_mem _ hj)
    rcases i with ⟨iid, ikind, iscope⟩
    cases ikind with
    | load ptr ty =>
      have hs : iscope = none :=
        h ⟨iid, .load ptr ty, iscope⟩ (List.mem_cons_self _ _)
          (by simp [loadOrStore])
      subst hs
      simp only [fwdGo]
      exact ih hrest _ _
    | store val valTy ptr =>
      have hs : iscope = none :=
        h ⟨iid, .store val valTy ptr, iscope⟩ (List.mem_cons_self _ _)
          (by simp [loadOrStore])
      subst hs
      simp only [fwdGo]
      exact ih hrest _ _
    | alloca => simp only [fwdGo]; exact ih hrest _ _
    | gep ptr c => simp only [fwdGo]; exact ih hrest _ _
    | cast src => simp only [fwdGo]; exact ih hrest _ _
    | call args => simp only [fwdGo]; exact ih hrest _ _
    | ret => simp only [fwdGo]; exact ih hrest _ _
    | misc => simp only [fwdGo]; exact ih hrest _ _

/-- The live-set walk collects nothing when every load and store in its
snapshot lacks alias-scope metadata. -/
theorem liveCollectGo_of_scope_free (slots : List StateSlot)
    (liveArgs : List (Nat × LiveB)) (snap : List IRInstr)
    (h : ∀ i ∈ snap, loadOrStore i = true → i.scope = none) :
    ∀ live acc, liveCollectGo slots liveArgs snap live acc = acc := by
  induction snap with
  | nil => intro live acc; rfl
  | cons i rest ih =>
    intro live acc
    have hrest : ∀ j ∈ rest, loadOrStore j = true → j.scope = none :=
      fun j hj => h j (List.mem_cons_of_mem _ hj)
    rcases i with ⟨iid, ikind, iscope⟩
    cases ikind with
    | load ptr ty =>
      have hs : iscope = none :=
        h ⟨iid, .load ptr ty, iscope⟩ (List.mem_cons_self _ _)
          (by simp [loadOrStore])
      subst hs
      simp only [liveCollectGo]
      exact ih hrest _ _
    | store val valTy ptr =>
      have hs : iscope = none :=
        h ⟨iid, .store val valTy ptr, iscope⟩ (List.mem_cons_self _ _)
          (by simp [loadOrStore])
      subst hs
      simp only [liveCollectGo]
      exact ih hrest _ _
    | alloca => simp only [liveCollectGo]; exact ih hrest _ _
    | gep ptr c => simp only [liveCollectGo]; exact ih hrest _ _
    | cast src => simp only [liveCollectGo]; exact ih hrest _ _
    | call args =>
      simp only [liveCollectGo]
      cases liveArgs.find? (fun p => p.1 == iid) <;> exact ih hrest _ _
    | ret => simp only [liveCollectGo]; exact ih hrest _ _
    | misc => simp only [liveCollectGo]; exact ih hrest _ _

/-- Deleting an empty collection is a no-op. -/
theorem deleteDeadInsts_nil (body : List IRInstr) :
    deleteDeadInsts [] body = body := by
  simp [deleteDeadInsts]

end DSE

/-! ## C8: the dead-store pass fails closed on a `State`-into-`State`
store -/

/-- C8: `visitStoreInst` yields `Error` on any store whose stored value is
`State`-derived (present in `state_offset`); when the forward alias
analysis of a function fails this way, `Analyze` returns `false` and the
pass leaves that function's IR unmodified: no `AAMDNodes` metadata is
added, and — since the forwarding and dead-store phases skip every load
and store without alias-scope metadata — nothing in the function is
forwarded or deleted.  The only touch is `AddInstruction`'s unconditional
clearing of pre-existing alias metadata, so on a function in the
scope-free state lifted functions are in when the pass starts, the output
is exactly the input. -/
theorem dse_store_error_fail_closed (slots : List DSE.StateSlot)
    (fuel : Nat) (f : DSE.IRFunc) (fav : DSE.FAV)
    (hfail : DSE.analyze slots fuel f = .failure fav) :
    (∀ (g : DSE.FAV) (n val ptr : Nat) (ty : DSE.IRType) (sc : Option Nat),
      (DSE.lookupOff g.stateOffset val).isSome = true →
      DSE.favVisit slots f.body g ⟨n, .store val ty ptr, sc⟩ = (g, .Error)) ∧
    DSE.removeDeadStoresFunc slots fuel false f =
      { f with body := DSE.clearScopes f.body } ∧
    ((∀ i ∈ f.body, DSE.loadOrStore i = true → i.scope = none) →
      DSE.removeDeadStoresFunc slots fuel false f = f) := by
  have hsf := DSE.clearScopes_scope_free f.body
  have hfwd : DSE.forwardingVisit slots fav.stateAccess fav.stateOffset
      (DSE.clearScopes f.body) = DSE.clearScopes f.body := by
    unfold DSE.forwardingVisit
    exact DSE.fwdGo_of_scope_free slots fav.stateAccess fav.stateOffset _
      (fun i hi => hsf i (List.mem_reverse.mp hi)) _ _
  have hlive : DSE.liveCollect slots fav.liveArgs (DSE.clearScopes f.body)
      = [] := by
    unfold DSE.liveCollect
    exact DSE.liveCollectGo_of_scope_free slots fav.liveArgs _
      (fun i hi => hsf i (List.mem_reverse.mp hi)) _ _
  have hpipe : DSE.removeDeadStoresFunc slots fuel false f =
      { f with body := DSE.clearScopes f.body } := by
    unfold DSE.removeDeadStoresFunc
    rw [hfail]
    simp only [Bool.false_eq_true, if_false, hfwd, hlive,
      DSE.deleteDeadInsts_nil]
  refine ⟨?_, hpipe, ?_⟩
  · intro g n val ptr ty sc hy
    simp [DSE.favVisit, hy]
  · intro hfree
    rw [hpipe, DSE.clearScopes_of_scope_free f.body hfree]

/-- Witness for `dse_store_error_fail_closed`: a lifted function that
GEPs into `State` and stores the resulting `State`-derived pointer back
into `State`; the analysis fails at the store and the whole pass leaves
the function untouched. -/
theorem dse_store_error_fail_closed_witness :
    DSE.analyze ((List.range 16).map (fun i => ⟨i, i, 1⟩)) 20
      ⟨some 100, [⟨1, .gep 100 (some 8), none⟩,
                  ⟨2, .store 1 .statePtrTy 100, none⟩,
                  ⟨3, .ret, none⟩]⟩
      = .failure ⟨[(1, 8), (100, 0)], [], [], []⟩ ∧
    DSE.removeDeadStoresFunc ((List.range 16).map (fun i => ⟨i, i, 1⟩)) 20
      false
      ⟨some 100, [⟨1, .gep 100 (some 8), none⟩,
                  ⟨2, .store 1 .statePtrTy 100, none⟩,
                  ⟨3, .ret, none⟩]⟩
      = ⟨some 100, [⟨1, .gep 100 (some 8), none⟩,
                    ⟨2, .store 1 .statePtrTy 100, none⟩,
                    ⟨3, .ret, none⟩]⟩ := by
  have h := dse_store_error_fail_closed
    ((List.range 16).map (fun i => ⟨i, i, 1⟩)) 20
    ⟨some 100, [⟨1, .gep 100 (some 8), none⟩,
                ⟨2, .store 1 .statePtrTy 100, none⟩,
                ⟨3, .ret, none⟩]⟩
    ⟨[(1, 8), (100, 0)], [], [], []⟩ (by decide)
  exact ⟨by decide, h.2.2 (by decide)⟩

end Remill
